import Mathlib

/-!
Verification of the electronics-inventory backend against its design document.

The development shallowly embeds the controller layer of the service
(`partsController`: `getParts`, `cutInventory`, `getPartBySku`, `createPart`,
`deletePart`) together with the SQLite data model from `database.ts`.

Modelling conventions:
* SQLite REAL columns and JavaScript numbers are modelled as `ℚ` (exact
  arithmetic; IEEE-754 rounding is out of scope).
* The database is a record of row lists; `AUTOINCREMENT` is an explicit
  `nextInventoryId` counter.  `CURRENT_TIMESTAMP` refreshes are not modelled.
* JavaScript truthiness of a request field is modelled as `≠ 0` for numbers
  and `≠ ""` for strings; an absent field is `Option.none`.
* Each `sql += fragment; params.push(values)` pair of the query builder
  becomes one entry of a clause list; the final query text and parameter
  list are the left-to-right folds of that list, exactly as the source
  accumulates them.
-/

set_option maxRecDepth 600000

set_option allowUnsafeReducibility true in
attribute [semireducible] Rat.add Rat.sub Rat.mul Rat.inv Rat.ofScientific

deriving instance DecidableEq for Except

namespace ElecInv

/-- The character class of the JavaScript regular expression `[\s　]`
(ASCII and Unicode whitespace as matched by `\s`, plus the full-width
space U+3000 the source adds explicitly, which `\s` in fact already
contains). -/
def isJsWs (c : Char) : Bool :=
  (9 ≤ c.toNat && c.toNat ≤ 13) || c.toNat == 32 || c.toNat == 160 ||
  c.toNat == 0x1680 || (0x2000 ≤ c.toNat && c.toNat ≤ 0x200a) ||
  c.toNat == 0x2028 || c.toNat == 0x2029 || c.toNat == 0x202f ||
  c.toNat == 0x205f || c.toNat == 0x3000 || c.toNat == 0xfeff

/-- JavaScript `String.prototype.trim`: strip leading and trailing
whitespace. -/
def jsTrim (s : String) : String :=
  String.mk (((s.data.dropWhile isJsWs).reverse.dropWhile isJsWs).reverse)

/-- JavaScript `String.prototype.split` on a character class: cut the
character list at every matching character (adjacent separators produce
empty pieces, exactly as `split(/c/)` does). -/
def splitClassAux (p : Char → Bool) : List Char → List Char → List (List Char)
  | acc, [] => [acc.reverse]
  | acc, c :: rest =>
      if p c then acc.reverse :: splitClassAux p [] rest
      else splitClassAux p (c :: acc) rest

def splitClass (p : Char → Bool) (s : String) : List String :=
  (splitClassAux p [] s.data).map String.mk

/-- `String(description).split(/[\s　]+/).filter(w => w)` from the source:
split on whitespace and keep the nonempty tokens.  Splitting on every
whitespace character and then discarding empty pieces yields the same
token list as splitting on maximal whitespace runs and discarding empty
pieces, so the run quantifier `+` needs no separate modelling. -/
def splitWsTokens (s : String) : List String :=
  (splitClass isJsWs s).filter (fun t => t ≠ "")

/-- JavaScript `Array.prototype.join(sep)`. -/
def joinSep (sep : String) : List String → String
  | [] => ""
  | [x] => x
  | x :: y :: rest => x ++ sep ++ joinSep sep (y :: rest)

/-- Left-to-right concatenation of the accumulated SQL fragments
(the fold of the `sql += ...` statements). -/
def strConcat : List String → String
  | [] => ""
  | s :: rest => s ++ strConcat rest

/-- Number of `?` placeholders in a piece of query text. -/
def countQ (s : String) : Nat := s.data.count '?'

/-- A query-string value as delivered by the HTTP layer: either a single
string or an array of strings (repeated parameter). -/
inductive QVal where
  | vstr (s : String)
  | varr (l : List String)
deriving DecidableEq, Repr

/-- JavaScript truthiness of a query value: an empty string is falsy,
every array (even the empty one) is truthy. -/
def QVal.truthy : QVal → Bool
  | .vstr s => s ≠ ""
  | .varr _ => true

/-- The source's `toArray`: an array is passed through unchanged, a string
is split on commas, trimmed, and cleared of empty entries. -/
def toArray : QVal → List String
  | .varr l => l
  | .vstr s => ((splitClass (fun c => c == ',') s).map jsTrim).filter (fun v => v ≠ "")

/-- The optional filter inputs of `GET /parts` (`req.query`). -/
structure PartsFilters where
  name : Option String := none
  sku : Option String := none
  supplier_code : Option String := none
  package_code : Option QVal := none
  category : Option QVal := none
  description : Option String := none
  q : Option String := none
deriving DecidableEq, Repr

/-- JavaScript truthiness of an optional string field. -/
def strTruthy : Option String → Bool
  | some s => s ≠ ""
  | none => false

/-- A substring facet: one `LIKE ?` fragment bound to `%value%`. -/
def likeClause (frag : String) : Option String → List (String × List String)
  | some s => if s = "" then [] else [(frag, ["%" ++ s ++ "%"])]
  | none => []

/-- An exact-match facet: one `= ?` fragment bound to the raw value. -/
def eqClause (frag : String) : Option String → List (String × List String)
  | some s => if s = "" then [] else [(frag, [s])]
  | none => []

/-- A multi-value facet: `k` OR-joined equality clauses on `col`, all
parameterized, bound to the `k` values in order (source lines building
`placeholders` from `map(() => "?").join(" OR col = ")`). -/
def orGroup (col : String) (v : QVal) : List (String × List String) :=
  if v.truthy then
    let vals := toArray v
    if vals.length > 0 then
      [(" AND (" ++ col ++ " = " ++
          joinSep (" OR " ++ col ++ " = ") (vals.map (fun _ => "?")) ++ ")",
        vals)]
    else []
  else []

def orGroupOpt (col : String) : Option QVal → List (String × List String)
  | some v => orGroup col v
  | none => []

/-- The tokenized `description` facet: one AND'd `LIKE ?` clause per token,
bound to `%token%`. -/
def descClauses : Option String → List (String × List String)
  | some s =>
      if s = "" then []
      else (splitWsTokens s).map (fun w => (" AND p.description LIKE ?", ["%" ++ w ++ "%"]))
  | none => []

/-- The generic keyword facet `q`: one OR pair over `sku`/`name`, two
parameters bound to the same `%q%`. -/
def qClauses : Option String → List (String × List String)
  | some s =>
      if s = "" then []
      else [(" AND (p.sku LIKE ? OR p.name LIKE ?)", ["%" ++ s ++ "%", "%" ++ s ++ "%"])]
  | none => []

/-- The base query of `getParts`, ending in `WHERE true` so every facet can
be appended uniformly. -/
def basePartsSql : String :=
  "\n            SELECT DISTINCT p.*, i.id as inventory_id, i.location_code, i.quantity, i.condition, i.spec_value\n            FROM parts_catalog p\n                     LEFT JOIN inventory i ON p.sku = i.part_sku\n                     LEFT JOIN part_suppliers s ON p.sku = s.part_sku\n            WHERE true\n        "

/-- The ordered (fragment, bound parameters) pairs appended by `getParts`,
one list entry per `sql += ...; params.push(...)` pair of the source, in
the source's fixed facet order. -/
def getPartsClauses (f : PartsFilters) : List (String × List String) :=
  likeClause " AND p.name LIKE ?" f.name ++
  likeClause " AND p.sku LIKE ?" f.sku ++
  eqClause " AND s.supplier_code = ?" f.supplier_code ++
  orGroupOpt "p.package_code" f.package_code ++
  orGroupOpt "p.category" f.category ++
  descClauses f.description ++
  qClauses f.q

/-- The final query text assembled by `getParts`. -/
def getPartsSql (f : PartsFilters) : String :=
  basePartsSql ++ strConcat ((getPartsClauses f).map Prod.fst)

/-- The final positional parameter list assembled by `getParts`. -/
def getPartsParams (f : PartsFilters) : List String :=
  ((getPartsClauses f).map Prod.snd).flatten

/-- The value-independent shape of a filter set: which scalar facets are
(truthily) present, and how many values/tokens each multi-value facet
contributes.  The query text may depend on this shape only. -/
structure QueryShape where
  hasName : Bool
  hasSku : Bool
  hasSupplier : Bool
  pkgCount : Nat
  catCount : Nat
  descCount : Nat
  hasQ : Bool
deriving DecidableEq, Repr

def qvalCount : Option QVal → Nat
  | some v => if v.truthy then (toArray v).length else 0
  | none => 0

def descCount : Option String → Nat
  | some s => if s = "" then 0 else (splitWsTokens s).length
  | none => 0

def shapeOf (f : PartsFilters) : QueryShape where
  hasName := strTruthy f.name
  hasSku := strTruthy f.sku
  hasSupplier := strTruthy f.supplier_code
  pkgCount := qvalCount f.package_code
  catCount := qvalCount f.category
  descCount := descCount f.description
  hasQ := strTruthy f.q

/-- The OR-group fragment as a function of the value count alone. -/
def orGroupSqlN (col : String) (n : Nat) : String :=
  if n = 0 then ""
  else " AND (" ++ col ++ " = " ++
    joinSep (" OR " ++ col ++ " = ") (List.replicate n "?") ++ ")"

/-- `n` copies of a fragment, concatenated. -/
def repFrag : Nat → String → String
  | 0, _ => ""
  | n + 1, s => s ++ repFrag n s

/-- The query text determined by a shape alone. -/
def sqlOfShape (sh : QueryShape) : String :=
  basePartsSql ++
  (if sh.hasName then " AND p.name LIKE ?" else "") ++
  (if sh.hasSku then " AND p.sku LIKE ?" else "") ++
  (if sh.hasSupplier then " AND s.supplier_code = ?" else "") ++
  orGroupSqlN "p.package_code" sh.pkgCount ++
  orGroupSqlN "p.category" sh.catCount ++
  repFrag sh.descCount " AND p.description LIKE ?" ++
  (if sh.hasQ then " AND (p.sku LIKE ? OR p.name LIKE ?)" else "")

theorem countQ_append (a b : String) : countQ (a ++ b) = countQ a + countQ b := by
  show ((a ++ b).data.count '?') = _
  rw [String.data_append, List.count_append]
  rfl

theorem empty_append_str (s : String) : "" ++ s = s := by
  cases s
  rfl

theorem strConcat_append (a b : List String) :
    strConcat (a ++ b) = strConcat a ++ strConcat b := by
  induction a with
  | nil =>
      show strConcat b = "" ++ strConcat b
      rw [empty_append_str]
  | cons x xs ih =>
      show x ++ strConcat (xs ++ b) = (x ++ strConcat xs) ++ strConcat b
      rw [ih, String.append_assoc]

theorem map_const_q {α : Type} (l : List α) :
    l.map (fun _ => "?") = List.replicate l.length "?" := by
  induction l with
  | nil => rfl
  | cons x xs ih => simp [List.replicate, ih]

theorem countQ_joinSep_rep (sep : String) (h : countQ sep = 0) :
    ∀ n : Nat, countQ (joinSep sep (List.replicate n "?")) = n
  | 0 => by simp [joinSep, countQ]
  | 1 => by simp [joinSep, countQ]
  | n + 2 => by
      have ih := countQ_joinSep_rep sep h (n + 1)
      show countQ ("?" ++ sep ++ joinSep sep (List.replicate (n + 1) "?")) = n + 2
      rw [countQ_append, countQ_append, ih, h]
      have h1 : countQ "?" = 1 := rfl
      omega

/-- Every clause the compiler emits is balanced: its fragment holds exactly
as many placeholders as it binds parameters. -/
theorem clause_balanced (f : PartsFilters) :
    ∀ c ∈ getPartsClauses f, countQ c.1 = c.2.length := by
  intro c hc
  unfold getPartsClauses at hc
  simp only [List.mem_append] at hc
  rcases hc with ((((((h | h) | h) | h) | h) | h) | h)
  · cases hn : f.name with
    | none => rw [hn] at h; simp [likeClause] at h
    | some s =>
        rw [hn] at h
        by_cases hs : s = "" <;> simp [likeClause, hs] at h
        subst h
        rfl
  · cases hn : f.sku with
    | none => rw [hn] at h; simp [likeClause] at h
    | some s =>
        rw [hn] at h
        by_cases hs : s = "" <;> simp [likeClause, hs] at h
        subst h
        rfl
  · cases hn : f.supplier_code with
    | none => rw [hn] at h; simp [eqClause] at h
    | some s =>
        rw [hn] at h
        by_cases hs : s = "" <;> simp [eqClause, hs] at h
        subst h
        rfl
  · cases hn : f.package_code with
    | none => rw [hn] at h; simp [orGroupOpt] at h
    | some v =>
        rw [hn] at h
        simp only [orGroupOpt, orGroup] at h
        by_cases ht : v.truthy
        · simp only [ht, if_true] at h
          by_cases hl : (toArray v).length > 0
          · simp only [hl, if_pos, List.mem_singleton] at h
            subst h
            show countQ (" AND (" ++ "p.package_code" ++ " = " ++ _ ++ ")") = (toArray v).length
            rw [countQ_append, countQ_append, countQ_append,
              map_const_q, countQ_joinSep_rep _ (by rfl)]
            have e1 : countQ (" AND (" ++ "p.package_code") = 0 := rfl
            have e2 : countQ " = " = 0 := rfl
            have e3 : countQ ")" = 0 := rfl
            omega
          · simp [hl] at h
        · simp [ht] at h
  · cases hn : f.category with
    | none => rw [hn] at h; simp [orGroupOpt] at h
    | some v =>
        rw [hn] at h
        simp only [orGroupOpt, orGroup] at h
        by_cases ht : v.truthy
        · simp only [ht, if_true] at h
          by_cases hl : (toArray v).length > 0
          · simp only [hl, if_pos, List.mem_singleton] at h
            subst h
            show countQ (" AND (" ++ "p.category" ++ " = " ++ _ ++ ")") = (toArray v).length
            rw [countQ_append, countQ_append, countQ_append,
              map_const_q, countQ_joinSep_rep _ (by rfl)]
            have e1 : countQ (" AND (" ++ "p.category") = 0 := rfl
            have e2 : countQ " = " = 0 := rfl
            have e3 : countQ ")" = 0 := rfl
            omega
          · simp [hl] at h
        · simp [ht] at h
  · cases hn : f.description with
    | none => rw [hn] at h; simp [descClauses] at h
    | some s =>
        rw [hn] at h
        by_cases hs : s = ""
        · simp [descClauses, hs] at h
        · simp only [descClauses] at h
          rw [if_neg hs, List.mem_map] at h
          obtain ⟨w, hw1, hw2⟩ := h
          subst hw2
          rfl
  · cases hn : f.q with
    | none => rw [hn] at h; simp [qClauses] at h
    | some s =>
        rw [hn] at h
        by_cases hs : s = "" <;> simp [qClauses, hs] at h
        subst h
        rfl

theorem strConcat_likeClause (frag : String) (o : Option String) :
    strConcat ((likeClause frag o).map Prod.fst) = if strTruthy o then frag else "" := by
  cases o with
  | none => rfl
  | some s =>
      by_cases hs : s = "" <;>
        simp [likeClause, strTruthy, hs, strConcat, String.append_empty]

theorem strConcat_eqClause (frag : String) (o : Option String) :
    strConcat ((eqClause frag o).map Prod.fst) = if strTruthy o then frag else "" := by
  cases o with
  | none => rfl
  | some s =>
      by_cases hs : s = "" <;>
        simp [eqClause, strTruthy, hs, strConcat, String.append_empty]

theorem strConcat_orGroupOpt (col : String) (o : Option QVal) :
    strConcat ((orGroupOpt col o).map Prod.fst) = orGroupSqlN col (qvalCount o) := by
  cases o with
  | none => rfl
  | some v =>
      simp only [orGroupOpt, orGroup, qvalCount]
      by_cases ht : v.truthy
      · simp only [ht, if_true]
        by_cases hl : (toArray v).length > 0
        · simp only [hl, if_pos, List.map_cons, List.map_nil, strConcat, orGroupSqlN,
            map_const_q, String.append_empty]
          rw [if_neg (by omega)]
        · have h0 : (toArray v).length = 0 := by omega
          simp [hl, orGroupSqlN, h0, strConcat]
      · simp [ht, orGroupSqlN, strConcat]

theorem strConcat_map_const_frag {α : Type} (l : List α) (frag : String)
    (g : α → List String) :
    strConcat ((l.map (fun w => (frag, g w))).map Prod.fst) = repFrag l.length frag := by
  induction l with
  | nil => rfl
  | cons w ws ih => simp only [List.map_cons, List.length_cons, strConcat, repFrag, ih]

theorem strConcat_descClauses (o : Option String) :
    strConcat ((descClauses o).map Prod.fst) =
      repFrag (descCount o) " AND p.description LIKE ?" := by
  cases o with
  | none => rfl
  | some s =>
      by_cases hs : s = ""
      · simp [descClauses, descCount, hs, repFrag, strConcat]
      · simp only [descClauses, descCount]
        rw [if_neg hs, if_neg hs]
        exact strConcat_map_const_frag (splitWsTokens s) _ (fun w => ["%" ++ w ++ "%"])

theorem strConcat_qClauses (o : Option String) :
    strConcat ((qClauses o).map Prod.fst) =
      if strTruthy o then " AND (p.sku LIKE ? OR p.name LIKE ?)" else "" := by
  cases o with
  | none => rfl
  | some s =>
      by_cases hs : s = "" <;>
        simp [qClauses, strTruthy, hs, strConcat, String.append_empty]

/-- Per-clause balance lifts to the whole fold. -/
theorem countQ_fold_balanced (L : List (String × List String))
    (h : ∀ c ∈ L, countQ c.1 = c.2.length) :
    countQ (strConcat (L.map Prod.fst)) = ((L.map Prod.snd).flatten).length := by
  induction L with
  | nil => rfl
  | cons c rest ih =>
      show countQ (c.1 ++ strConcat (rest.map Prod.fst)) = (c.2 ++ (rest.map Prod.snd).flatten).length
      rw [countQ_append, List.length_append, h c (List.mem_cons_self c rest),
        ih (fun d hd => h d (List.mem_cons_of_mem c hd))]

end ElecInv

namespace ElecInv

/-- C4: For every filter input, the compiled query text holds exactly as many
`?` placeholders as the parameter list has entries; each emitted clause is
individually balanced, so the positional parameters line up with the
placeholders left-to-right; and the query text is a function of the
value-independent shape of the filters alone, so no user-controlled value
ever reaches the query text (values travel only in the parameter list). -/
theorem getParts_query_parameterization (f : PartsFilters) :
    countQ (getPartsSql f) = (getPartsParams f).length ∧
    (∀ c ∈ getPartsClauses f, countQ c.1 = c.2.length) ∧
    getPartsSql f = sqlOfShape (shapeOf f) := by
  refine ⟨?_, clause_balanced f, ?_⟩
  · unfold getPartsSql getPartsParams
    rw [countQ_append, countQ_fold_balanced _ (clause_balanced f)]
    have hb : countQ basePartsSql = 0 := rfl
    omega
  · unfold getPartsSql sqlOfShape getPartsClauses shapeOf
    simp only [List.map_append, strConcat_append]
    rw [strConcat_likeClause, strConcat_likeClause, strConcat_eqClause,
      strConcat_orGroupOpt, strConcat_orGroupOpt, strConcat_descClauses,
      strConcat_qClauses]
    simp only [String.append_assoc]

/-- Witness for C4 at the concrete filter set `name = "x"`. -/
theorem getParts_query_parameterization_witness :
    countQ (getPartsSql { name := some "x" }) =
      (getPartsParams { name := some "x" }).length ∧
    countQ (" AND p.name LIKE ?", (["%x%"] : List String)).1 =
      (" AND p.name LIKE ?", (["%x%"] : List String)).2.length ∧
    getPartsSql { name := some "x" } = sqlOfShape (shapeOf { name := some "x" }) :=
  ⟨(getParts_query_parameterization { name := some "x" }).1,
   (getParts_query_parameterization { name := some "x" }).2.1 _ (by decide),
   (getParts_query_parameterization { name := some "x" }).2.2⟩

/-- C5: compiling the single filter `category = "IC,Resistor"` binds exactly
`["IC", "Resistor"]` in order under a fragment that ORs two parameterized
equality clauses on `p.category`; compiling `description = "low noise"`
produces two AND-joined `LIKE` clauses bound to `%low%` and `%noise%`. -/
theorem getParts_category_description_examples :
    getPartsParams { category := some (QVal.vstr "IC,Resistor") } = ["IC", "Resistor"] ∧
    getPartsSql { category := some (QVal.vstr "IC,Resistor") } =
      basePartsSql ++ " AND (p.category = ? OR p.category = ?)" ∧
    getPartsParams { description := some "low noise" } = ["%low%", "%noise%"] ∧
    getPartsSql { description := some "low noise" } =
      basePartsSql ++ " AND p.description LIKE ? AND p.description LIKE ?" := by
  refine ⟨?_, ?_, ?_, ?_⟩ <;> decide

end ElecInv

namespace ElecInv

/-- One row of the `inventory` table (`database.ts`).  `quantity` and
`spec_value` are REAL columns; `condition` is the `\x7b'NEW','SCRAP'\x7d`
text enum; `last_updated` is not modelled. -/
structure LotRow where
  id : Nat
  part_sku : String
  location_code : String
  quantity : ℚ
  spec_value : ℚ
  condition : String
deriving DecidableEq, Repr

/-- One row of the `parts_catalog` table. -/
structure CatalogRow where
  sku : String
  category : String
  name : String
  mpn : Option String
  package_code : Option String
  spec_definition : String
  image_url : Option String
  default_spec : ℚ
  unit : String
deriving DecidableEq, Repr

/-- One row of the `part_suppliers` table (synthetic id not modelled). -/
structure SupplierRow where
  part_sku : String
  supplier_code : Option String
  supplier_name : Option String
  product_url : Option String
deriving DecidableEq, Repr

/-- The relational store: the three row lists the controllers touch, plus
the AUTOINCREMENT counter of `inventory.id`. -/
structure Db where
  parts_catalog : List CatalogRow
  part_suppliers : List SupplierRow
  inventory : List LotRow
  nextInventoryId : Nat
deriving DecidableEq, Repr

/-- The error responses of `cutInventory`, by source order:
400 missing fields, 404 not found, 400 "Insufficient quantity",
400 "Use amount exceeds current spec", and the 500 surfaced after a store
failure mid-transaction. -/
inductive CutErr where
  | missingFields
  | notFound
  | insufficientQuantity
  | exceedsSpec
  | storeError
deriving DecidableEq, Repr

/-- The success payload of `cutInventory` (`original_id`, `remaining_spec`). -/
structure CutOk where
  original_id : Nat
  remaining_spec : ℚ
deriving DecidableEq, Repr

/-- What the read phase of `cutInventory` captures before any write: the
joined inventory row, its catalog `default_spec`, and the remaining spec
computed from that snapshot. -/
structure CutSnap where
  item : LotRow
  default_spec : ℚ
  remaining : ℚ
deriving DecidableEq, Repr

/-- Source line 100: `condition === "NEW" ? default_spec : spec_value`. -/
def effectiveSpec (lot : LotRow) (defaultSpec : ℚ) : ℚ :=
  if lot.condition = "NEW" then defaultSpec else lot.spec_value

/-- The read-and-validate phase of `cutInventory` (source lines 79-105):
truthiness check on both body fields, the joined `SELECT` of the lot with
its catalog row, the `quantity < 1` check, and the `remainingSpec < 0`
check against the snapshot. -/
def cutRead (db : Db) (inventoryId : Nat) (useAmount : ℚ) : Except CutErr CutSnap :=
  if inventoryId = 0 ∨ useAmount = 0 then .error .missingFields
  else
    match db.inventory.find? (fun r => r.id == inventoryId) with
    | none => .error .notFound
    | some lot =>
        match db.parts_catalog.find? (fun p => p.sku == lot.part_sku) with
        | none => .error .notFound
        | some p =>
            if lot.quantity < 1 then .error .insufficientQuantity
            else
              let remainingSpec := effectiveSpec lot p.default_spec - useAmount
              if remainingSpec < 0 then .error .exceedsSpec
              else .ok ⟨lot, p.default_spec, remainingSpec⟩

/-- The `UPDATE inventory SET quantity = quantity - 1 WHERE id = ?`
statement: an unconditional decrement against the store's current state. -/
def applyDecrement (db : Db) (inventoryId : Nat) : Db :=
  { db with
    inventory := db.inventory.map (fun r =>
      if r.id == inventoryId then { r with quantity := r.quantity - 1 } else r) }

/-- The `INSERT INTO inventory ... VALUES (?, ?, 1, ?, 'SCRAP')` statement:
a new lot with the snapshot's SKU and location, quantity 1, the remaining
spec, condition SCRAP, and the next AUTOINCREMENT id. -/
def applyInsert (db : Db) (snap : CutSnap) : Db :=
  { db with
    inventory := db.inventory ++
      [⟨db.nextInventoryId, snap.item.part_sku, snap.item.location_code, 1,
        snap.remaining, "SCRAP"⟩],
    nextInventoryId := db.nextInventoryId + 1 }

/-- The write phase of one `cut` (source lines 110-121): decrement, then
insert the SCRAP remainder when it is positive. -/
def cutWrite (db : Db) (inventoryId : Nat) (snap : CutSnap) : Db :=
  let db1 := applyDecrement db inventoryId
  if snap.remaining > 0 then applyInsert db1 snap else db1

/-- Which statement of the cut transaction the store fails at, if any.
A failing statement has no effect and the `catch` block's `ROLLBACK`
discards the transaction's prior writes. -/
inductive FailPoint where
  | noFail
  | atUpdate
  | atInsert
  | atCommit
deriving DecidableEq, Repr

/-- `cutInventory` (source lines 77-139) with a store-failure schedule.
The `BEGIN TRANSACTION` / `COMMIT` bracket is modelled by discarding the
transaction's writes and returning the pre-transaction store whenever the
designated statement fails (the explicit `ROLLBACK` of the catch block),
surfacing the 500 `storeError`. -/
def cutInventoryF (db : Db) (inventoryId : Nat) (useAmount : ℚ) (fp : FailPoint) :
    Except CutErr CutOk × Db :=
  match cutRead db inventoryId useAmount with
  | .error e => (.error e, db)
  | .ok snap =>
      if fp = .atUpdate then (.error .storeError, db)
      else
        let db1 := applyDecrement db inventoryId
        if snap.remaining > 0 then
          if fp = .atInsert then (.error .storeError, db)
          else
            let db2 := applyInsert db1 snap
            if fp = .atCommit then (.error .storeError, db)
            else (.ok ⟨inventoryId, snap.remaining⟩, db2)
        else
          if fp = .atCommit then (.error .storeError, db)
          else (.ok ⟨inventoryId, snap.remaining⟩, db1)

/-- `POST /parts/cut` on a healthy store. -/
def cutInventory (db : Db) (inventoryId : Nat) (useAmount : ℚ) :
    Except CutErr CutOk × Db :=
  cutInventoryF db inventoryId useAmount .noFail

/-- Two overlapping `cut` calls against the same lot, interleaved so that
both validation reads complete before either transaction's writes run — a
schedule the event-driven runtime permits, since the `SELECT` and the
`BEGIN ... COMMIT` block are separate awaited store calls.  Each call that
passed validation then applies its write phase to the store state left by
the previous one. -/
def twoCutsReadsFirst (db : Db) (inventoryId : Nat) (u1 u2 : ℚ) :
    Except CutErr CutOk × Except CutErr CutOk × Db :=
  match cutRead db inventoryId u1, cutRead db inventoryId u2 with
  | .ok s1, .ok s2 =>
      let db1 := cutWrite db inventoryId s1
      let db2 := cutWrite db1 inventoryId s2
      (.ok ⟨inventoryId, s1.remaining⟩, .ok ⟨inventoryId, s2.remaining⟩, db2)
  | .ok s1, .error e2 =>
      (.ok ⟨inventoryId, s1.remaining⟩, .error e2, cutWrite db inventoryId s1)
  | .error e1, .ok s2 =>
      (.error e1, .ok ⟨inventoryId, s2.remaining⟩, cutWrite db inventoryId s2)
  | .error e1, .error e2 => (.error e1, .error e2, db)

end ElecInv

namespace ElecInv

theorem find?_decrement (l : List LotRow) (i : Nat) (lot : LotRow)
    (h : l.find? (fun r => r.id == i) = some lot) :
    (l.map (fun r => if r.id == i then { r with quantity := r.quantity - 1 } else r)).find?
        (fun r => r.id == i) = some { lot with quantity := lot.quantity - 1 } := by
  induction l with
  | nil => simp at h
  | cons r rest ih =>
      cases hr : (r.id == i : Bool) with
      | true =>
          simp only [List.find?_cons, hr] at h
          injection h with h
          subst h
          rw [List.map_cons,
            if_pos hr,
            List.find?_cons,
            show ((({ r with quantity := r.quantity - 1 } : LotRow).id == i)) = true from hr]
      | false =>
          simp only [List.find?_cons, hr] at h
          simp only [List.map_cons, hr, Bool.false_eq_true, if_false, List.find?_cons]
          exact ih h

theorem cutRead_ok_new (db : Db) (i : Nat) (u : ℚ) (lot : LotRow) (p : CatalogRow)
    (hid : i ≠ 0)
    (hfind : db.inventory.find? (fun r => r.id == i) = some lot)
    (hcat : db.parts_catalog.find? (fun c => c.sku == lot.part_sku) = some p)
    (hnew : lot.condition = "NEW") (hq : lot.quantity = 1)
    (hu0 : 0 < u) (huD : u ≤ p.default_spec) :
    cutRead db i u = .ok ⟨lot, p.default_spec, p.default_spec - u⟩ := by
  have h1 : ¬(i = 0 ∨ u = 0) := by push_neg; exact ⟨hid, ne_of_gt hu0⟩
  have h2 : ¬(lot.quantity < 1) := by rw [hq]; exact lt_irrefl 1
  have h3 : ¬(effectiveSpec lot p.default_spec - u < 0) := by
    simp only [effectiveSpec, hnew, if_pos]
    simp only [not_lt]
    linarith
  unfold cutRead
  rw [if_neg h1]
  simp only [hfind, hcat]
  rw [if_neg h2]
  simp only [if_neg h3]
  simp [effectiveSpec, hnew]

/-- C1: for a NEW lot of quantity 1 whose catalog default spec is `D`, a cut
of `0 < u ≤ D` succeeds and returns `remaining_spec = D - u`; the source
lot's quantity drops to 0; when `u < D` the store gains exactly one new row
— same SKU and location, condition SCRAP, quantity 1, spec `D - u` — and
when `u = D` no row is added. -/
theorem cut_new_lot_spec (db : Db) (i : Nat) (u : ℚ) (lot : LotRow) (p : CatalogRow)
    (hid : i ≠ 0)
    (hfind : db.inventory.find? (fun r => r.id == i) = some lot)
    (hcat : db.parts_catalog.find? (fun c => c.sku == lot.part_sku) = some p)
    (hnew : lot.condition = "NEW") (hq : lot.quantity = 1)
    (hu0 : 0 < u) (huD : u ≤ p.default_spec) :
    cutInventory db i u =
      (.ok ⟨i, p.default_spec - u⟩,
       { db with
         inventory :=
           db.inventory.map (fun r =>
             if r.id == i then { r with quantity := r.quantity - 1 } else r) ++
           (if u < p.default_spec then
              [⟨db.nextInventoryId, lot.part_sku, lot.location_code, 1,
                p.default_spec - u, "SCRAP"⟩]
            else []),
         nextInventoryId :=
           if u < p.default_spec then db.nextInventoryId + 1
           else db.nextInventoryId }) ∧
    (cutInventory db i u).2.inventory.find? (fun r => r.id == i) =
      some { lot with quantity := 0 } := by
  have hread := cutRead_ok_new db i u lot p hid hfind hcat hnew hq hu0 huD
  have hmain : cutInventory db i u =
      (.ok ⟨i, p.default_spec - u⟩,
       { db with
         inventory :=
           db.inventory.map (fun r =>
             if r.id == i then { r with quantity := r.quantity - 1 } else r) ++
           (if u < p.default_spec then
              [⟨db.nextInventoryId, lot.part_sku, lot.location_code, 1,
                p.default_spec - u, "SCRAP"⟩]
            else []),
         nextInventoryId :=
           if u < p.default_spec then db.nextInventoryId + 1
           else db.nextInventoryId }) := by
    unfold cutInventory cutInventoryF
    rw [hread]
    by_cases hlt : u < p.default_spec
    · have hpos : p.default_spec - u > 0 := by linarith
      simp [hpos, hlt, applyDecrement, applyInsert]
    · have heq : p.default_spec - u = 0 := by
        have := le_antisymm huD (not_lt.mp hlt)
        linarith
      rw [heq]
      simp [hlt, applyDecrement, applyInsert]
  refine ⟨hmain, ?_⟩
  rw [hmain]
  dsimp only
  rw [List.find?_append, find?_decrement db.inventory i lot hfind]
  simp [hq, sub_self]

def lotC1 : LotRow := ⟨1, "R-100", "A1", 1, 0, "NEW"⟩

def catC1 : CatalogRow := ⟨"R-100", "Wire", "hookup wire", none, none, "", none, 10, "m"⟩

def dbC1 : Db := ⟨[catC1], [], [lotC1], 2⟩

/-- Witness for C1: cutting 3 from a NEW quantity-1 lot of default spec 10
returns remaining 7 and zeroes the source lot. -/
theorem cut_new_lot_spec_witness :
    (cutInventory dbC1 1 3).1 = Except.ok ⟨1, 7⟩ ∧
    (cutInventory dbC1 1 3).2.inventory.find? (fun r => r.id == 1) =
      some ⟨1, "R-100", "A1", 0, 0, "NEW"⟩ := by
  have h := cut_new_lot_spec dbC1 1 3 lotC1 catC1 (by decide) (by decide) (by decide)
    rfl rfl (by decide) (by decide)
  refine ⟨?_, ?_⟩
  · rw [h.1]
    rfl
  · exact h.2

/-- C2: the cut transaction is all-or-nothing under store failure.  For any
failure point the caller either gets the untouched pre-cut store (the
`ROLLBACK` path) or exactly the healthy run's outcome; in particular a
failure of the SCRAP insert, after the decrement already executed, leaves
the store exactly as before the cut and surfaces the 500. -/
theorem cut_transaction_atomic (db : Db) (i : Nat) (u : ℚ) :
    (∀ fp, (cutInventoryF db i u fp).2 = db ∨
      cutInventoryF db i u fp = cutInventory db i u) ∧
    (∀ snap, cutRead db i u = Except.ok snap → 0 < snap.remaining →
      cutInventoryF db i u .atInsert = (.error .storeError, db)) := by
  constructor
  · intro fp
    unfold cutInventory cutInventoryF
    cases hr : cutRead db i u with
    | error e => left; rfl
    | ok snap =>
        cases fp with
        | noFail => right; rfl
        | atUpdate => left; rfl
        | atCommit => by_cases hrem : snap.remaining > 0 <;> simp [hrem]
        | atInsert =>
            by_cases hrem : snap.remaining > 0
            · left; simp [hrem]
            · right; simp [hrem]
  · intro snap hsnap hrem
    unfold cutInventoryF
    rw [hsnap]
    simp [gt_iff_lt, hrem]

def dbC2 : Db :=
  ⟨[⟨"W-200", "Wire", "magnet wire", none, none, "", none, 10, "m"⟩], [],
   [⟨1, "W-200", "B2", 1, 0, "NEW"⟩], 2⟩

/-- Witness for C2 at a concrete store: an insert-time failure rolls the cut
back completely. -/
theorem cut_transaction_atomic_witness :
    cutInventoryF dbC2 1 3 .atInsert = (.error .storeError, dbC2) ∧
    ((cutInventoryF dbC2 1 3 .atUpdate).2 = dbC2 ∨
      cutInventoryF dbC2 1 3 .atUpdate = cutInventory dbC2 1 3) := by
  have h := cut_transaction_atomic dbC2 1 3
  exact ⟨h.2 ⟨⟨1, "W-200", "B2", 1, 0, "NEW"⟩, 10, 7⟩ (by decide) (by decide),
    h.1 .atUpdate⟩

def dbC3 : Db :=
  ⟨[⟨"R-100", "Wire", "hookup wire", none, none, "", none, 10, "m"⟩], [],
   [⟨1, "R-100", "A1", 1, 0, "NEW"⟩], 2⟩

/-- C3 fails on the code: with the validation `SELECT` and the write
transaction being separate awaited store calls, the schedule in which both
cuts read before either writes lets BOTH calls succeed against a
quantity-1 lot.  The quantity is driven to -1 and two SCRAP remainders of
spec 7 are persisted (total 14), where the claim demands one success, one
InsufficientQuantity failure, and a single remainder of 7. -/
theorem cut_concurrent_lost_update :
    (twoCutsReadsFirst dbC3 1 3 3).1 = Except.ok ⟨1, 7⟩ ∧
    (twoCutsReadsFirst dbC3 1 3 3).2.1 = Except.ok ⟨1, 7⟩ ∧
    ((twoCutsReadsFirst dbC3 1 3 3).2.2.inventory.find?
        (fun r => r.id == 1)).map LotRow.quantity = some (-1) ∧
    ((twoCutsReadsFirst dbC3 1 3 3).2.2.inventory.filter
        (fun r => r.condition == "SCRAP")).map LotRow.spec_value = [7, 7] := by
  refine ⟨?_, ?_, ?_, ?_⟩ <;> decide

end ElecInv

namespace ElecInv

def dbC6 : Db :=
  ⟨[⟨"P-300", "Wire", "bus wire", none, none, "", none, 5, "m"⟩], [],
   [⟨1, "P-300", "C3", 0, 5, "NEW"⟩], 2⟩

/-- C6 as stated is false: for the existing lot id 1 (quantity 0, effective
spec 5) and useAmount 10 > 5, `cut` fails with InsufficientQuantity — the
quantity check runs before the spec check — not with the
"use amount exceeds current spec" ValidationError the claim requires for
every existing lot. -/
theorem cut_exceeds_spec_counterexample :
    dbC6.inventory.find? (fun r => r.id == 1) =
      some ⟨1, "P-300", "C3", 0, 5, "NEW"⟩ ∧
    (10 : ℚ) > 5 ∧
    (cutInventory dbC6 1 10).1 = Except.error CutErr.insufficientQuantity ∧
    (cutInventory dbC6 1 10).1 ≠ Except.error CutErr.exceedsSpec := by
  refine ⟨by decide, by decide, by decide, by decide⟩

/-- C6 amended: for every existing lot with quantity ≥ 1 (so the earlier
InsufficientQuantity check passes) and every useAmount strictly above the
lot's effective spec, `cut` fails with the "use amount exceeds current
spec" ValidationError and performs no store mutation. -/
theorem cut_exceeds_spec_validation (db : Db) (i : Nat) (u : ℚ)
    (lot : LotRow) (p : CatalogRow)
    (hid : i ≠ 0)
    (hfind : db.inventory.find? (fun r => r.id == i) = some lot)
    (hcat : db.parts_catalog.find? (fun c => c.sku == lot.part_sku) = some p)
    (hq : 1 ≤ lot.quantity)
    (hspec : 0 ≤ effectiveSpec lot p.default_spec)
    (hu : effectiveSpec lot p.default_spec < u) :
    cutInventory db i u = (Except.error CutErr.exceedsSpec, db) := by
  have hu0 : u ≠ 0 := by
    have : 0 < u := lt_of_le_of_lt hspec hu
    exact ne_of_gt this
  have h1 : ¬(i = 0 ∨ u = 0) := by push_neg; exact ⟨hid, hu0⟩
  have h2 : ¬(lot.quantity < 1) := not_lt.mpr hq
  have h3 : effectiveSpec lot p.default_spec - u < 0 := by linarith
  have hread : cutRead db i u = .error .exceedsSpec := by
    unfold cutRead
    rw [if_neg h1]
    simp only [hfind, hcat]
    rw [if_neg h2]
    simp only [if_pos h3]
  unfold cutInventory cutInventoryF
  rw [hread]

def dbC6w : Db :=
  ⟨[⟨"P-300", "Wire", "bus wire", none, none, "", none, 5, "m"⟩], [],
   [⟨1, "P-300", "C3", 1, 5, "NEW"⟩], 2⟩

/-- Witness for the amended C6: quantity 1, effective spec 5, useAmount 10. -/
theorem cut_exceeds_spec_validation_witness :
    cutInventory dbC6w 1 10 = (Except.error CutErr.exceedsSpec, dbC6w) :=
  cut_exceeds_spec_validation dbC6w 1 10 ⟨1, "P-300", "C3", 1, 5, "NEW"⟩
    ⟨"P-300", "Wire", "bus wire", none, none, "", none, 5, "m"⟩
    (by decide) (by decide) (by decide) (by decide) (by decide) (by decide)

def dbC7 : Db :=
  ⟨[⟨"P-400", "Wire", "shield wire", none, none, "", none, 5, "m"⟩], [],
   [⟨1, "P-400", "D4", 0, 5, "NEW"⟩], 2⟩

/-- C7 as stated is false: for the existing lot id 1 with quantity 0 and
useAmount 0, the JavaScript truthiness check `!useAmount` rejects the
request as a missing-field ValidationError before the quantity check
runs, so the failure is not InsufficientQuantity. -/
theorem cut_zero_quantity_counterexample :
    dbC7.inventory.find? (fun r => r.id == 1) =
      some ⟨1, "P-400", "D4", 0, 5, "NEW"⟩ ∧
    (cutInventory dbC7 1 0).1 = Except.error CutErr.missingFields ∧
    (cutInventory dbC7 1 0).1 ≠ Except.error CutErr.insufficientQuantity := by
  refine ⟨by decide, by decide, by decide⟩

/-- C7 amended: for every lot with quantity 0 (joined to an existing catalog
row) and every NONZERO useAmount, `cut` fails with InsufficientQuantity
and the store is untouched. -/
theorem cut_zero_quantity_insufficient (db : Db) (i : Nat) (u : ℚ)
    (lot : LotRow) (p : CatalogRow)
    (hid : i ≠ 0) (hu : u ≠ 0)
    (hfind : db.inventory.find? (fun r => r.id == i) = some lot)
    (hcat : db.parts_catalog.find? (fun c => c.sku == lot.part_sku) = some p)
    (hq : lot.quantity = 0) :
    cutInventory db i u = (Except.error CutErr.insufficientQuantity, db) := by
  have h1 : ¬(i = 0 ∨ u = 0) := by push_neg; exact ⟨hid, hu⟩
  have h2 : lot.quantity < 1 := by rw [hq]; norm_num
  have hread : cutRead db i u = .error .insufficientQuantity := by
    unfold cutRead
    rw [if_neg h1]
    simp only [hfind, hcat]
    rw [if_pos h2]
  unfold cutInventory cutInventoryF
  rw [hread]

/-- Witness for the amended C7 at useAmount 99. -/
theorem cut_zero_quantity_insufficient_witness :
    cutInventory dbC7 1 99 = (Except.error CutErr.insufficientQuantity, dbC7) :=
  cut_zero_quantity_insufficient dbC7 1 99 ⟨1, "P-400", "D4", 0, 5, "NEW"⟩
    ⟨"P-400", "Wire", "shield wire", none, none, "", none, 5, "m"⟩
    (by decide) (by decide) (by decide) (by decide) (by decide)

end ElecInv

namespace ElecInv

/-- C10: the truthiness check `!useAmount` only rejects the value 0, so a
NEGATIVE useAmount sails through every validation (`remainingSpec` is then
strictly positive), the source lot is decremented, and a SCRAP lot is
inserted whose spec strictly exceeds the source piece's effective spec —
material created from nothing.  Separately, useAmount = 0 is rejected as
the missing-field ValidationError for every store state, before the
NotFound and InsufficientQuantity checks could fire. -/
theorem cut_negative_amount_inflates (db : Db) (i : Nat) (u : ℚ)
    (lot : LotRow) (p : CatalogRow)
    (hid : i ≠ 0)
    (hfind : db.inventory.find? (fun r => r.id == i) = some lot)
    (hcat : db.parts_catalog.find? (fun c => c.sku == lot.part_sku) = some p)
    (hq : 1 ≤ lot.quantity)
    (hu : u < 0)
    (hspec : 0 ≤ effectiveSpec lot p.default_spec) :
    cutInventory db i u =
      (.ok ⟨i, effectiveSpec lot p.default_spec - u⟩,
       { db with
         inventory :=
           db.inventory.map (fun r =>
             if r.id == i then { r with quantity := r.quantity - 1 } else r) ++
           [⟨db.nextInventoryId, lot.part_sku, lot.location_code, 1,
             effectiveSpec lot p.default_spec - u, "SCRAP"⟩],
         nextInventoryId := db.nextInventoryId + 1 }) ∧
    effectiveSpec lot p.default_spec < effectiveSpec lot p.default_spec - u ∧
    (∀ db2 : Db, ∀ i2 : Nat, cutInventory db2 i2 0 =
      (Except.error CutErr.missingFields, db2)) := by
  have h1 : ¬(i = 0 ∨ u = 0) := by push_neg; exact ⟨hid, ne_of_lt hu⟩
  have h2 : ¬(lot.quantity < 1) := not_lt.mpr hq
  have h3 : ¬(effectiveSpec lot p.default_spec - u < 0) := by
    simp only [not_lt]
    linarith
  have hread : cutRead db i u =
      .ok ⟨lot, p.default_spec, effectiveSpec lot p.default_spec - u⟩ := by
    unfold cutRead
    rw [if_neg h1]
    simp only [hfind, hcat]
    rw [if_neg h2]
    simp only [if_neg h3]
  refine ⟨?_, by linarith, ?_⟩
  · have hpos : effectiveSpec lot p.default_spec - u > 0 := by linarith
    unfold cutInventory cutInventoryF
    rw [hread]
    simp [hpos, applyDecrement, applyInsert]
  · intro db2 i2
    unfold cutInventory cutInventoryF cutRead
    simp

def dbC10 : Db :=
  ⟨[⟨"R-100", "Wire", "hookup wire", none, none, "", none, 10, "m"⟩], [],
   [⟨1, "R-100", "A1", 1, 0, "NEW"⟩], 2⟩

/-- Witness for C10: cutting -3 from a NEW lot of default spec 10 succeeds
and materializes a SCRAP lot of spec 13; cutting 0 is a missing-field
error. -/
theorem cut_negative_amount_inflates_witness :
    (cutInventory dbC10 1 (-3)).1 = Except.ok ⟨1, 13⟩ ∧
    cutInventory dbC10 1 0 = (Except.error CutErr.missingFields, dbC10) := by
  have h := cut_negative_amount_inflates dbC10 1 (-3)
    ⟨1, "R-100", "A1", 1, 0, "NEW"⟩
    ⟨"R-100", "Wire", "hookup wire", none, none, "", none, 10, "m"⟩
    (by decide) (by decide) (by decide) (by decide) (by decide) (by decide)
  refine ⟨?_, h.2.2 dbC10 1⟩
  rw [h.1]
  rfl

end ElecInv

namespace ElecInv

inductive DeleteErr where
  | notFound
deriving DecidableEq, Repr

/-- `DELETE /parts/:sku` (source `deletePart`): 404 when the SKU is absent,
otherwise delete the supplier rows and the catalog row in one transaction.
No check against the `inventory` table exists, and the schema's foreign
keys are not enforced (no `PRAGMA foreign_keys`), so lots are neither
checked nor cascaded. -/
def deletePart (db : Db) (sku : String) : Except DeleteErr Unit × Db :=
  match db.parts_catalog.find? (fun p => p.sku == sku) with
  | none => (.error .notFound, db)
  | some _ =>
      (.ok (),
       { db with
         part_suppliers := db.part_suppliers.filter (fun s => ¬s.part_sku == sku),
         parts_catalog := db.parts_catalog.filter (fun p => ¬p.sku == sku) })

def dbC8 : Db :=
  ⟨[⟨"R-100", "Wire", "hookup wire", none, none, "", none, 10, "m"⟩],
   [⟨"R-100", some "SUP1", some "Acme", none⟩],
   [⟨1, "R-100", "A1", 1, 10, "NEW"⟩], 2⟩

/-- C8 fails on the code: deleting catalog entry R-100 while lot id 1 with
quantity 1 > 0 still references it succeeds (204), removes the catalog row
and its supplier rows, and leaves the live lot orphaned — the delete is
neither rejected nor cascaded to the lots. -/
theorem deletePart_live_lots_not_rejected :
    (dbC8.inventory.find? (fun r => r.part_sku == "R-100")).map LotRow.quantity =
      some 1 ∧
    (deletePart dbC8 "R-100").1 = Except.ok () ∧
    (deletePart dbC8 "R-100").2.parts_catalog = [] ∧
    (deletePart dbC8 "R-100").2.part_suppliers = [] ∧
    (deletePart dbC8 "R-100").2.inventory = dbC8.inventory := by
  refine ⟨by decide, by decide, by decide, by decide, by decide⟩

end ElecInv

namespace ElecInv

def lbrace : Char := Char.ofNat 123

def rbrace : Char := Char.ofNat 125

/-- A specification document as the system stores it: an opaque key-value
JSON document with string leaves and arbitrarily nested objects (numeric
and boolean leaves are outside the model, since JavaScript numbers are
IEEE floats). -/
inductive Json where
  | jstr (s : String)
  | jobj (fields : List (String × Json))

mutual

def jsonDecEq : (a b : Json) → Decidable (a = b)
  | .jstr s, .jstr t =>
      if h : s = t then .isTrue (by rw [h])
      else .isFalse (fun hh => h (by injection hh))
  | .jstr _, .jobj _ => .isFalse (fun hh => Json.noConfusion hh)
  | .jobj _, .jstr _ => .isFalse (fun hh => Json.noConfusion hh)
  | .jobj fs, .jobj gs =>
      match fieldsDecEq fs gs with
      | .isTrue h => .isTrue (by rw [h])
      | .isFalse h => .isFalse (fun hh => h (by injection hh))

def fieldsDecEq : (fs gs : List (String × Json)) → Decidable (fs = gs)
  | [], [] => .isTrue rfl
  | [], _ :: _ => .isFalse (fun hh => List.noConfusion hh)
  | _ :: _, [] => .isFalse (fun hh => List.noConfusion hh)
  | (k, v) :: fs, (l, w) :: gs =>
      if hk : k = l then
        match jsonDecEq v w with
        | .isTrue hv =>
            match fieldsDecEq fs gs with
            | .isTrue ht => .isTrue (by rw [hk, hv, ht])
            | .isFalse ht => .isFalse (fun hh => ht (by injection hh))
        | .isFalse hv =>
            .isFalse (fun hh => hv (by
              injection hh with h1 h2
              exact congrArg Prod.snd h1))
      else
        .isFalse (fun hh => hk (by
          injection hh with h1 h2
          exact congrArg Prod.fst h1))

end

instance : DecidableEq Json := jsonDecEq

/-- Lower-case hex digit, as `JSON.stringify` emits in `\u00XX` escapes. -/
def hexDigit (n : Nat) : Char :=
  if n < 10 then Char.ofNat (48 + n) else Char.ofNat (97 + n - 10)

/-- The escape `JSON.stringify` applies to one string character: quote and
backslash are escaped, the named control escapes are used for 8-13, and
any other control character becomes `\u00XX`. -/
def escChar (c : Char) : List Char :=
  if c = '"' then ['\\', '"']
  else if c = '\\' then ['\\', '\\']
  else if c = '\n' then ['\\', 'n']
  else if c = '\r' then ['\\', 'r']
  else if c = '\t' then ['\\', 't']
  else if c.toNat = 8 then ['\\', 'b']
  else if c.toNat = 12 then ['\\', 'f']
  else if c.toNat < 32 then
    ['\\', 'u', '0', '0', hexDigit (c.toNat / 16), hexDigit (c.toNat % 16)]
  else [c]

/-- A JSON string literal: quoted, characters escaped. -/
def serStrLit (s : String) : List Char :=
  '"' :: (s.data.map escChar).flatten ++ ['"']

mutual

/-- `JSON.stringify` for the modelled documents (no whitespace, fields in
order, duplicate keys kept). -/
def serJson : Json → List Char
  | .jstr s => serStrLit s
  | .jobj fields => lbrace :: serFields fields ++ [rbrace]

def serFields : List (String × Json) → List Char
  | [] => []
  | [(k, v)] => serStrLit k ++ ':' :: serJson v
  | (k, v) :: f :: rest => serStrLit k ++ ':' :: serJson v ++ ',' :: serFields (f :: rest)

end

def Json.stringify (j : Json) : String := String.mk (serJson j)

def parseHexDigit (c : Char) : Option Nat :=
  if 48 ≤ c.toNat ∧ c.toNat ≤ 57 then some (c.toNat - 48)
  else if 97 ≤ c.toNat ∧ c.toNat ≤ 102 then some (c.toNat - 97 + 10)
  else if 65 ≤ c.toNat ∧ c.toNat ≤ 70 then some (c.toNat - 65 + 10)
  else none

def unescapeChar (e : Char) : Option Char :=
  if e = '"' then some '"'
  else if e = '\\' then some '\\'
  else if e = '/' then some '/'
  else if e = 'n' then some '\n'
  else if e = 'r' then some '\r'
  else if e = 't' then some '\t'
  else if e = 'b' then some (Char.ofNat 8)
  else if e = 'f' then some (Char.ofNat 12)
  else none

/-- Parse the body of a JSON string literal (after the opening quote) into
the accumulated characters, stopping at the closing quote. -/
def parseStrBody : List Char → List Char → Option (String × List Char)
  | _, [] => none
  | acc, c :: rest =>
      if c = '"' then some (String.mk acc.reverse, rest)
      else if c = '\\' then
        match rest with
        | [] => none
        | e :: rest1 =>
            if e = 'u' then
              match rest1 with
              | a :: b :: c2 :: d :: rest2 =>
                  match parseHexDigit a, parseHexDigit b, parseHexDigit c2,
                      parseHexDigit d with
                  | some x, some y, some z, some w =>
                      parseStrBody
                        (Char.ofNat (((x * 16 + y) * 16 + z) * 16 + w) :: acc) rest2
                  | _, _, _, _ => none
              | _ => none
            else
              match unescapeChar e with
              | some ch => parseStrBody (ch :: acc) rest1
              | none => none
      else parseStrBody (c :: acc) rest

mutual

/-- Recursive-descent JSON value parser over the no-whitespace grammar
`JSON.stringify` emits (`JSON.parse` restricted to that grammar), with a
fuel parameter for totality. -/
def parseVal : Nat → List Char → Option (Json × List Char)
  | 0, _ => none
  | _ + 1, [] => none
  | fuel + 1, c :: rest =>
      if c = '"' then
        match parseStrBody [] rest with
        | some (s, rest1) => some (.jstr s, rest1)
        | none => none
      else if c = lbrace then
        match rest with
        | [] => none
        | c2 :: rest2 =>
            if c2 = rbrace then some (.jobj [], rest2)
            else
              match parseMembers fuel (c2 :: rest2) with
              | some (fs, rest3) => some (.jobj fs, rest3)
              | none => none
      else none

/-- Parse one or more `"key":value` members followed by the closing brace
(which it consumes). -/
def parseMembers : Nat → List Char → Option (List (String × Json) × List Char)
  | 0, _ => none
  | _ + 1, [] => none
  | fuel + 1, c :: rest =>
      if c = '"' then
        match parseStrBody [] rest with
        | some (k, rest1) =>
            match rest1 with
            | [] => none
            | c2 :: rest2 =>
                if c2 = ':' then
                  match parseVal fuel rest2 with
                  | some (v, rest3) =>
                      match rest3 with
                      | [] => none
                      | c3 :: rest4 =>
                          if c3 = ',' then
                            match parseMembers fuel rest4 with
                            | some (fs, rest5) => some ((k, v) :: fs, rest5)
                            | none => none
                          else if c3 = rbrace then some ([(k, v)], rest4)
                          else none
                  | none => none
                else none
        | none => none
      else none

end

/-- `JSON.parse` on a complete input: the whole string must be consumed. -/
def Json.parse (s : String) : Option Json :=
  match parseVal (s.length + 1) s.data with
  | some (j, []) => some j
  | _ => none

end ElecInv

namespace ElecInv

theorem parseHexDigit_hexDigit (n : Nat) (h : n < 16) :
    parseHexDigit (hexDigit n) = some n := by
  interval_cases n <;> rfl

theorem escChar_parse (c : Char) (acc tail : List Char) :
    parseStrBody acc (escChar c ++ tail) = parseStrBody (c :: acc) tail := by
  by_cases h1 : c = '"'
  · subst h1
    show parseStrBody acc ('\\' :: '"' :: tail) = _
    rw [parseStrBody.eq_def]
    simp [unescapeChar]
  by_cases h2 : c = '\\'
  · subst h2
    show parseStrBody acc ('\\' :: '\\' :: tail) = _
    rw [parseStrBody.eq_def]
    simp [unescapeChar]
  by_cases h3 : c = '\n'
  · subst h3
    show parseStrBody acc ('\\' :: 'n' :: tail) = _
    rw [parseStrBody.eq_def]
    simp [unescapeChar]
  by_cases h4 : c = '\r'
  · subst h4
    show parseStrBody acc ('\\' :: 'r' :: tail) = _
    rw [parseStrBody.eq_def]
    simp [unescapeChar]
  by_cases h5 : c = '\t'
  · subst h5
    show parseStrBody acc ('\\' :: 't' :: tail) = _
    rw [parseStrBody.eq_def]
    simp [unescapeChar]
  by_cases h6 : c.toNat = 8
  · have hc : c = Char.ofNat 8 := by rw [← h6]; exact (Char.ofNat_toNat c).symm
    subst hc
    rw [show escChar (Char.ofNat 8) ++ tail = '\\' :: 'b' :: tail from rfl]
    rw [parseStrBody.eq_def]
    simp [unescapeChar]
  by_cases h7 : c.toNat = 12
  · have hc : c = Char.ofNat 12 := by rw [← h7]; exact (Char.ofNat_toNat c).symm
    subst hc
    rw [show escChar (Char.ofNat 12) ++ tail = '\\' :: 'f' :: tail from rfl]
    rw [parseStrBody.eq_def]
    simp [unescapeChar]
  by_cases h8 : c.toNat < 32
  · rw [show escChar c =
        ['\\', 'u', '0', '0', hexDigit (c.toNat / 16), hexDigit (c.toNat % 16)] from by
      rw [escChar]
      rw [if_neg h1, if_neg h2, if_neg h3, if_neg h4, if_neg h5, if_neg h6, if_neg h7,
        if_pos h8]]
    show parseStrBody acc
        ('\\' :: 'u' :: '0' :: '0' :: hexDigit (c.toNat / 16) ::
          hexDigit (c.toNat % 16) :: tail) = _
    rw [parseStrBody.eq_def]
    simp only [reduceIte, reduceCtorEq]
    rw [parseHexDigit_hexDigit (c.toNat / 16) (by omega),
      parseHexDigit_hexDigit (c.toNat % 16) (by omega)]
    have hval : ((((0 : Nat) * 16 + 0) * 16 + c.toNat / 16) * 16 + c.toNat % 16)
        = c.toNat := by
      have := Nat.div_add_mod c.toNat 16
      omega
    rw [show parseHexDigit '0' = some 0 from rfl]
    simp only [hval, Char.ofNat_toNat]
    rw [if_neg (show ¬ ('\\' = '"') from by decide)]
  · rw [show escChar c = [c] from by
      rw [escChar]
      rw [if_neg h1, if_neg h2, if_neg h3, if_neg h4, if_neg h5, if_neg h6, if_neg h7,
        if_neg h8]]
    show parseStrBody acc (c :: tail) = _
    rw [parseStrBody.eq_def]
    simp only [if_neg h1, if_neg h2]

end ElecInv

namespace ElecInv

theorem parseStrBody_esc (l : List Char) : ∀ acc rest : List Char,
    parseStrBody acc ((l.map escChar).flatten ++ '"' :: rest) =
      some (String.mk (acc.reverse ++ l), rest) := by
  induction l with
  | nil =>
      intro acc rest
      show parseStrBody acc ('"' :: rest) = _
      rw [parseStrBody.eq_def]
      simp
  | cons c l ih =>
      intro acc rest
      rw [List.map_cons, List.flatten_cons, List.append_assoc, escChar_parse,
        ih (c :: acc) rest]
      simp

theorem parseStrBody_ser (s : String) (rest : List Char) :
    parseStrBody [] ((s.data.map escChar).flatten ++ '"' :: rest) = some (s, rest) := by
  rw [parseStrBody_esc]
  simp

theorem serStrLit_append (s : String) (X : List Char) :
    serStrLit s ++ X = '"' :: ((s.data.map escChar).flatten ++ '"' :: X) := by
  simp [serStrLit]

mutual

/-- Fuel sufficient for the parser to reconstruct a document. -/
def jfuel : Json → Nat
  | .jstr _ => 1
  | .jobj fs => 1 + mfuel fs

def mfuel : List (String × Json) → Nat
  | [] => 0
  | (_, v) :: rest => 1 + jfuel v + mfuel rest

end

theorem serFields_cons_head (k : String) (v : Json) (restm : List (String × Json)) :
    ∃ t : List Char, serFields ((k, v) :: restm) = '"' :: t := by
  cases restm with
  | nil =>
      refine ⟨(k.data.map escChar).flatten ++ '"' :: ':' :: serJson v, ?_⟩
      show serStrLit k ++ ':' :: serJson v = _
      rw [serStrLit_append]
  | cons f rest =>
      refine ⟨(k.data.map escChar).flatten ++
        '"' :: ':' :: (serJson v ++ ',' :: serFields (f :: rest)), ?_⟩
      show (serStrLit k ++ ':' :: serJson v) ++ ',' :: serFields (f :: rest) = _
      rw [List.append_assoc, List.cons_append, serStrLit_append]

end ElecInv


namespace ElecInv

theorem parseVal_quote (fuel : Nat) (X : List Char) :
    parseVal (fuel + 1) ('"' :: X) =
      match parseStrBody [] X with
      | some (s, rest1) => some (.jstr s, rest1)
      | none => none := rfl

theorem parseVal_lbrace (fuel : Nat) (c2 : Char) (rest2 : List Char) :
    parseVal (fuel + 1) (lbrace :: c2 :: rest2) =
      if c2 = rbrace then some (.jobj [], rest2)
      else
        match parseMembers fuel (c2 :: rest2) with
        | some (fs, rest3) => some (.jobj fs, rest3)
        | none => none := rfl

theorem parseMembers_quote (fuel : Nat) (X : List Char) :
    parseMembers (fuel + 1) ('"' :: X) =
      match parseStrBody [] X with
      | some (k, rest1) =>
          match rest1 with
          | [] => none
          | c2 :: rest2 =>
              if c2 = ':' then
                match parseVal fuel rest2 with
                | some (v, rest3) =>
                    match rest3 with
                    | [] => none
                    | c3 :: rest4 =>
                        if c3 = ',' then
                          match parseMembers fuel rest4 with
                          | some (fs, rest5) => some ((k, v) :: fs, rest5)
                          | none => none
                        else if c3 = rbrace then some ([(k, v)], rest4)
                        else none
                | none => none
              else none
      | none => none := rfl

theorem parse_ser (fuel : Nat) :
    (∀ (j : Json) (rest : List Char), jfuel j ≤ fuel →
      parseVal fuel (serJson j ++ rest) = some (j, rest)) ∧
    (∀ (fs : List (String × Json)) (rest : List Char), fs ≠ [] → mfuel fs ≤ fuel →
      parseMembers fuel (serFields fs ++ rbrace :: rest) = some (fs, rest)) := by
  induction fuel with
  | zero =>
      constructor
      · intro j rest hj
        exfalso
        cases j <;> simp [jfuel] at hj
      · intro fs rest hne hm
        exfalso
        cases fs with
        | nil => exact hne rfl
        | cons f r => obtain ⟨k, v⟩ := f; simp [mfuel] at hm
  | succ fuel ih =>
      obtain ⟨ihP, ihQ⟩ := ih
      constructor
      · intro j rest hj
        cases j with
        | jstr s =>
            show parseVal (fuel + 1) (serStrLit s ++ rest) = _
            rw [serStrLit_append, parseVal_quote, parseStrBody_ser]
        | jobj fs =>
            cases fs with
            | nil =>
                show parseVal (fuel + 1)
                  ((lbrace :: (serFields [] ++ [rbrace])) ++ rest) = _
                rw [show (lbrace :: (serFields [] ++ [rbrace])) ++ rest
                    = lbrace :: rbrace :: rest from rfl]
                rw [parseVal_lbrace, if_pos rfl]
            | cons f restm =>
                obtain ⟨k, v⟩ := f
                have hmf : mfuel ((k, v) :: restm) ≤ fuel := by
                  simp only [jfuel] at hj
                  omega
                obtain ⟨t, ht⟩ := serFields_cons_head k v restm
                have hinput : (lbrace :: (serFields ((k, v) :: restm) ++ [rbrace])) ++ rest
                    = lbrace :: '"' :: (t ++ rbrace :: rest) := by
                  rw [List.cons_append, List.append_assoc, ht]
                  rfl
                show parseVal (fuel + 1)
                  ((lbrace :: (serFields ((k, v) :: restm) ++ [rbrace])) ++ rest) = _
                rw [hinput, parseVal_lbrace,
                  if_neg (show ¬ ('"' = rbrace) from by decide)]
                have hback : ('"' :: (t ++ rbrace :: rest))
                    = serFields ((k, v) :: restm) ++ rbrace :: rest := by
                  rw [ht, List.cons_append]
                rw [hback, ihQ ((k, v) :: restm) rest (List.cons_ne_nil _ _) hmf]
      · intro fs rest hne hm
        cases fs with
        | nil => exact absurd rfl hne
        | cons f restm =>
            obtain ⟨k, v⟩ := f
            have hfv : jfuel v ≤ fuel := by
              simp only [mfuel] at hm
              omega
            have hmr : mfuel restm ≤ fuel := by
              simp only [mfuel] at hm
              omega
            cases restm with
            | nil =>
                have hinput : serFields [(k, v)] ++ rbrace :: rest
                    = '"' :: ((k.data.map escChar).flatten ++
                        '"' :: (':' :: (serJson v ++ rbrace :: rest))) := by
                  show (serStrLit k ++ ':' :: serJson v) ++ rbrace :: rest = _
                  rw [List.append_assoc, List.cons_append, serStrLit_append]
                rw [hinput, parseMembers_quote, parseStrBody_ser]
                dsimp only
                rw [if_pos rfl, ihP v (rbrace :: rest) hfv]
                dsimp only
                rw [if_neg (show ¬rbrace = ',' from by decide), if_pos rfl]
            | cons g restr =>
                have hinput : serFields ((k, v) :: g :: restr) ++ rbrace :: rest
                    = '"' :: ((k.data.map escChar).flatten ++
                        '"' :: (':' :: (serJson v ++
                          ',' :: (serFields (g :: restr) ++ rbrace :: rest)))) := by
                  show ((serStrLit k ++ ':' :: serJson v) ++
                      ',' :: serFields (g :: restr)) ++ rbrace :: rest = _
                  rw [List.append_assoc, List.append_assoc, List.cons_append,
                    List.cons_append, serStrLit_append]
                rw [hinput, parseMembers_quote, parseStrBody_ser]
                dsimp only
                rw [if_pos rfl,
                  ihP v (',' :: (serFields (g :: restr) ++ rbrace :: rest)) hfv]
                dsimp only
                rw [if_pos rfl, ihQ (g :: restr) rest (List.cons_ne_nil _ _) hmr]

end ElecInv

namespace ElecInv

theorem serStrLit_length (s : String) : 2 ≤ (serStrLit s).length := by
  simp [serStrLit]

mutual

theorem jfuel_le_length : ∀ j : Json, jfuel j ≤ (serJson j).length + 1
  | .jstr s => by simp [jfuel]
  | .jobj fs => by
      have h := mfuel_le_length fs
      show 1 + mfuel fs ≤ (lbrace :: (serFields fs ++ [rbrace])).length + 1
      simp only [List.length_cons, List.length_append, List.length_singleton]
      omega

theorem mfuel_le_length : ∀ fs : List (String × Json),
    mfuel fs ≤ (serFields fs).length + 1
  | [] => by simp [mfuel]
  | [(k, v)] => by
      have h1 := jfuel_le_length v
      have h2 := serStrLit_length k
      show 1 + jfuel v + mfuel [] ≤ (serStrLit k ++ ':' :: serJson v).length + 1
      simp only [mfuel, List.length_append, List.length_cons]
      omega
  | (k, v) :: g :: restr => by
      have h1 := jfuel_le_length v
      have h2 := serStrLit_length k
      have h3 := mfuel_le_length (g :: restr)
      show 1 + jfuel v + mfuel (g :: restr) ≤
        ((serStrLit k ++ ':' :: serJson v) ++ ',' :: serFields (g :: restr)).length + 1
      simp only [List.length_append, List.length_cons]
      omega

end

/-- Round-trip of the modelled codec: parsing a stringified document yields
the document back. -/
theorem json_parse_stringify (j : Json) : Json.parse (Json.stringify j) = some j := by
  unfold Json.parse Json.stringify
  have hlen : (String.mk (serJson j)).length = (serJson j).length := rfl
  rw [hlen]
  have hdata : (String.mk (serJson j)).data = serJson j := rfl
  rw [hdata]
  have h := (parse_ser ((serJson j).length + 1)).1 j []
    (le_trans (jfuel_le_length j) (by omega))
  rw [List.append_nil] at h
  rw [h]

end ElecInv

namespace ElecInv

structure SupplierInput where
  supplier_name : Option String
  supplier_code : Option String
  product_url : Option String

/-- The request body of `POST /parts`. -/
structure CreateInput where
  sku : String
  category : String
  name : String
  mpn : Option String := none
  package_code : Option String := none
  spec_definition : Option Json := none
  image_url : Option String := none
  default_spec : Option ℚ := none
  unit : Option String := none
  suppliers : List SupplierInput := []

inductive CreateErr where
  | missingFields
  | conflict
deriving DecidableEq, Repr

/-- JavaScript `x || null` on an optional string: empty strings collapse to
null. -/
def orNullStr : Option String → Option String
  | some s => if s = "" then none else some s
  | none => none

/-- `createPart` (source lines 163-215): required-field truthiness check,
duplicate-SKU 409, then the catalog insert with
`JSON.stringify(spec_definition || \x7b\x7d)` and the supplier inserts in one
transaction. -/
def createPart (db : Db) (inp : CreateInput) : Except CreateErr Unit × Db :=
  if inp.sku = "" ∨ inp.category = "" ∨ inp.name = "" then (.error .missingFields, db)
  else if (db.parts_catalog.find? (fun p => p.sku == inp.sku)).isSome then
    (.error .conflict, db)
  else
    (.ok (),
     { db with
       parts_catalog := db.parts_catalog ++
         [{ sku := inp.sku, category := inp.category, name := inp.name,
            mpn := orNullStr inp.mpn, package_code := orNullStr inp.package_code,
            spec_definition := Json.stringify (inp.spec_definition.getD (.jobj [])),
            image_url := orNullStr inp.image_url,
            default_spec := inp.default_spec.getD 0,
            unit := (orNullStr inp.unit).getD "pcs" }],
       part_suppliers := db.part_suppliers ++ inp.suppliers.map (fun sup =>
         ⟨inp.sku, sup.supplier_code, sup.supplier_name, sup.product_url⟩) })

inductive GetErr where
  | notFound
  | internal
deriving DecidableEq, Repr

/-- The response shape of `GET /parts/:sku`: the catalog row spread out with
its `spec_definition` deserialized and the supplier rows attached. -/
structure PartView where
  part : CatalogRow
  spec_definition : Json
  suppliers : List SupplierRow

/-- `getPartBySku` (source lines 141-161): 404 when absent; otherwise the
row with `spec_definition ? JSON.parse(spec_definition) : \x7b\x7d` (a parse
throw surfaces as the 500 InternalError). -/
def getPartBySku (db : Db) (sku : String) : Except GetErr PartView :=
  match db.parts_catalog.find? (fun p => p.sku == sku) with
  | none => .error .notFound
  | some part =>
      if part.spec_definition = "" then
        .ok ⟨part, .jobj [], db.part_suppliers.filter (fun sup => sup.part_sku == sku)⟩
      else
        match Json.parse part.spec_definition with
        | some doc =>
            .ok ⟨part, doc, db.part_suppliers.filter (fun sup => sup.part_sku == sku)⟩
        | none => .error .internal

theorem stringify_ne_empty (j : Json) : Json.stringify j ≠ "" := by
  intro h
  have hd := congrArg String.data h
  cases j with
  | jstr s => simp [Json.stringify, serJson, serStrLit] at hd
  | jobj fs => simp [Json.stringify, serJson] at hd

/-- C9: creating a part with a specification document and fetching it back
by SKU returns a deserialized document equal to the one supplied
(serialize-then-parse round-trip through the store). -/
theorem createPart_getPart_roundtrip (db : Db) (inp : CreateInput) (doc : Json)
    (hsku : inp.sku ≠ "") (hcat : inp.category ≠ "") (hname : inp.name ≠ "")
    (hfresh : db.parts_catalog.find? (fun p => p.sku == inp.sku) = none)
    (hdoc : inp.spec_definition = some doc) :
    (createPart db inp).1 = Except.ok () ∧
    ((getPartBySku (createPart db inp).2 inp.sku).map PartView.spec_definition)
      = Except.ok doc := by
  have h1 : ¬(inp.sku = "" ∨ inp.category = "" ∨ inp.name = "") := by
    push_neg
    exact ⟨hsku, hcat, hname⟩
  have hstep : createPart db inp =
      (.ok (),
       { db with
         parts_catalog := db.parts_catalog ++
           [{ sku := inp.sku, category := inp.category, name := inp.name,
              mpn := orNullStr inp.mpn, package_code := orNullStr inp.package_code,
              spec_definition := Json.stringify (inp.spec_definition.getD (.jobj [])),
              image_url := orNullStr inp.image_url,
              default_spec := inp.default_spec.getD 0,
              unit := (orNullStr inp.unit).getD "pcs" }],
         part_suppliers := db.part_suppliers ++ inp.suppliers.map (fun sup =>
           ⟨inp.sku, sup.supplier_code, sup.supplier_name, sup.product_url⟩) }) := by
    unfold createPart
    rw [if_neg h1, hfresh]
    rfl
  refine ⟨by rw [hstep], ?_⟩
  rw [hstep]
  dsimp only
  unfold getPartBySku
  rw [List.find?_append, hfresh, Option.none_or, List.find?_singleton,
    if_pos (by simp)]
  rw [hdoc]
  dsimp only [Option.getD]
  rw [if_neg (stringify_ne_empty doc), json_parse_stringify doc]
  rfl

def dbC9 : Db := ⟨[], [], [], 1⟩

def docC9 : Json := .jobj [("v_ceo", .jstr "50V")]

def inpC9 : CreateInput :=
  { sku := "Q2N-3055", category := "Transistor", name := "NPN power",
    spec_definition := some docC9 }

/-- Witness for C9 at `specDefinition = (v_ceo : 50V)` on an empty store. -/
theorem createPart_getPart_roundtrip_witness :
    (createPart dbC9 inpC9).1 = Except.ok () ∧
    ((getPartBySku (createPart dbC9 inpC9).2 "Q2N-3055").map PartView.spec_definition)
      = Except.ok docC9 :=
  createPart_getPart_roundtrip dbC9 inpC9 docC9 (by decide) (by decide) (by decide)
    rfl rfl

end ElecInv
